import Mathlib

/-!
Shallow embedding of the oai_gnb_monitor sources (the threaded pipeline in
src/unnamed/part_000 and, where claims cite them, the two single-threaded
variants in src/main.cpp).  Pure functions of the C++ code become Lean
functions; the stateful assembler becomes explicit state passing over an
association-list model of std::map; machine ints are Int, doubles are Rat
(exact decimal values, since every parsed literal is a decimal string);
fallible std::stoi / std::stod become Except-returning functions.
-/

namespace OaiGnb

/-! ## Character classes of the ECMAScript patterns: \w, \d, [0-9.] -/

def isWordChar (c : Char) : Bool := c.isAlphanum || c = '_'

def isDigitChar (c : Char) : Bool := c.isDigit

def isNumDotChar (c : Char) : Bool := c.isDigit || c = '.'

/-! ## Restricted regex AST

The five patterns in the source use only: literal runs, greedy one-or-more
of a character class (captured), the captured forms (-?\d+) and (\w+-\w+),
and uncaptured greedy .+ .  We embed exactly these constructs, with
ECMAScript greedy-backtracking order (longest candidate first) and
std::regex_search leftmost-start search. -/

inductive GroupPat where
  | clsPlus (p : Char → Bool)
  | optNegDigits
  | wordDashWord

inductive RElem where
  | lit (s : List Char)
  | dotPlus
  | grp (g : GroupPat)

/-- Length of the maximal prefix run of characters satisfying p. -/
def runLen (p : Char → Bool) : List Char → Nat
  | [] => 0
  | c :: cs => if p c then runLen p cs + 1 else 0

/-- Candidate lengths in greedy order: n, n-1, ..., 1. -/
def descLens (n : Nat) : List Nat := (List.range n).map (fun i => n - i)

/-- Candidate (capture, rest) splits for a one-or-more class group,
greedy (longest) first. -/
def clsPlusCands (p : Char → Bool) (s : List Char) : List (List Char × List Char) :=
  (descLens (runLen p s)).map (fun k => (s.take k, s.drop k))

/-- Candidate (capture, rest) splits for a capturing group, in ECMAScript
backtracking order. -/
def groupCands : GroupPat → List Char → List (List Char × List Char)
  | .clsPlus p, s => clsPlusCands p s
  | .optNegDigits, s =>
      (match s with
        | '-' :: rest =>
            (clsPlusCands isDigitChar rest).map (fun pr => ('-' :: pr.1, pr.2))
        | _ => []) ++ clsPlusCands isDigitChar s
  | .wordDashWord, s =>
      (clsPlusCands isWordChar s).flatMap (fun pr =>
        match pr.2 with
        | '-' :: rest =>
            (clsPlusCands isWordChar rest).map (fun qr =>
              (pr.1 ++ '-' :: qr.1, qr.2))
        | _ => [])

/-- Backtracking matcher anchored at the start of s; returns the capture
list on success.  Candidates are tried in greedy order, so the first
success reproduces ECMAScript semantics. -/
def matchSeq : List RElem → List Char → Option (List (List Char))
  | [], _ => some []
  | .lit l :: ps, s =>
      if l.isPrefixOf s then matchSeq ps (s.drop l.length) else none
  | .dotPlus :: ps, s =>
      (descLens s.length).findSome? (fun k => matchSeq ps (s.drop k))
  | .grp g :: ps, s =>
      (groupCands g s).findSome? (fun pr =>
        (matchSeq ps pr.2).map (fun caps => pr.1 :: caps))

/-- std::regex_search: try the pattern at position 0, 1, ... and return the
captures of the leftmost match. -/
def searchFrom (pat : List RElem) : List Char → Option (List (List Char))
  | [] => matchSeq pat []
  | c :: rest =>
      match matchSeq pat (c :: rest) with
      | some caps => some caps
      | none => searchFrom pat rest

def searchP (pat : List RElem) (line : String) : Option (List String) :=
  (searchFrom pat line.data).map (List.map String.mk)

/-- matches[i] of std::smatch, 1-based group index. -/
def capt (caps : List String) (i : Nat) : String := caps.getD (i - 1) ""

/-! ## Numeric conversions (std::stoi, std::stod)

The capture alphabets are \d (with optional leading -) and [0-9.], so we
embed the conversion grammar restricted to sign, digits and dot:
longest-valid-prefix parsing, invalid_argument when no prefix converts,
out_of_range past the int / double limits. -/

inductive ConvErr where
  | invalidArgument
  | outOfRange
  deriving DecidableEq

deriving instance DecidableEq for Except

def digitsVal (l : List Char) : Nat :=
  l.foldl (fun acc c => acc * 10 + (c.toNat - '0'.toNat)) 0

def intMax : Int := 2147483647
def intMin : Int := -2147483648

/-- std::stoi: optional sign then a digit run (longest prefix); throws
invalid_argument with no digits, out_of_range outside int range. -/
def cppStoi (s : String) : Except ConvErr Int :=
  let core (l : List Char) (sign : Int) : Except ConvErr Int :=
    let ds := l.take (runLen isDigitChar l)
    if ds.isEmpty then .error .invalidArgument
    else
      let v : Int := sign * (digitsVal ds : Int)
      if v < intMin ∨ intMax < v then .error .outOfRange else .ok v
  match s.data with
  | '-' :: rest => core rest (-1)
  | '+' :: rest => core rest 1
  | l => core l 1

/-- Largest finite double, as an exact rational. -/
def dblMax : ℚ := mkRat ((2 ^ 1024 - 2 ^ 971 : ℕ) : Int) 1

/-- std::stod on strings over the [0-9.] capture alphabet: digits, optional
dot, digits, needing at least one digit in the consumed prefix; the exact
decimal value as a rational. -/
def cppStod (s : String) : Except ConvErr ℚ :=
  let l := s.data
  let ip := l.take (runLen isDigitChar l)
  let rest := l.drop ip.length
  let fp :=
    match rest with
    | '.' :: r => r.take (runLen isDigitChar r)
    | _ => []
  if ip.isEmpty ∧ fp.isEmpty then .error .invalidArgument
  else
    let den : ℕ := 10 ^ fp.length
    let v : ℚ := mkRat ((digitsVal ip * den + digitsVal fp : ℕ) : Int) den
    if dblMax < v then .error .outOfRange else .ok v

def isOkI (e : Except ConvErr Int) : Bool := match e with | .ok _ => true | _ => false
def isOkQ (e : Except ConvErr ℚ) : Bool := match e with | .ok _ => true | _ => false

/-! ## Data model: struct UEData, field order as in the source -/

structure UEData where
  rnti : String
  state : String
  rsrp : ℚ
  pcmax : Int
  ue_id : Int
  ph : Int
  cqi : Int
  dl_ri : Int
  ul_ri : Int
  dlsch_err : Int
  pucch_dtx : Int
  dl_bler : ℚ
  dl_mcs : Int
  ulsch_err : Int
  ulsch_dtx : Int
  ul_bler : ℚ
  ul_mcs : Int
  nprb : Int
  snr : ℚ
  timestamp : Int
  deriving DecidableEq

/-- UEData() / std::map value-initialization: every member at its type's
zero value ({} initializers in part_000; value-init in the variants). -/
def UEData.zero : UEData :=
  ⟨"", "", 0, 0, 0, 0, 0, 0, 0, 0, 0, 0, 0, 0, 0, 0, 0, 0, 0, 0⟩

instance : Inhabited UEData := ⟨UEData.zero⟩

/-! ## The assembler working map: std::map<std::string, UEData> -/

def TMap := List (String × UEData)

instance : DecidableEq TMap := by unfold TMap; infer_instance

def lookupT (m : TMap) (k : String) : Option UEData :=
  match m with
  | [] => none
  | e :: rest => if e.1 = k then some e.2 else lookupT rest k

def insertT (m : TMap) (k : String) (v : UEData) : TMap :=
  match m with
  | [] => [(k, v)]
  | e :: rest => if e.1 = k then (k, v) :: rest else e :: insertT rest k v

def eraseT (m : TMap) (k : String) : TMap :=
  match m with
  | [] => []
  | e :: rest => if e.1 = k then rest else e :: eraseT rest k

/-- temp_ue_data[k] as an rvalue: std::map::operator[] default-constructs a
missing entry, so the observed value of an absent key is UEData.zero. -/
def getE (m : TMap) (k : String) : UEData := (lookupT m k).getD UEData.zero

/-- temp_ue_data[k].field = v: operator[] inserts the default entry if
absent, then the field is assigned. -/
def updT (m : TMap) (k : String) (f : UEData → UEData) : TMap :=
  insertT m k (f (getE m k))

/-! ## The five line patterns, transliterated from the source regexes -/

/-- UE RNTI (\w+) CU-UE-ID (\d+) (\w+-\w+) PH (\d+) dB PCMAX (\d+) dBm,
average RSRP (-?\d+) -/
def ue_basic_pattern : List RElem :=
  [.lit "UE RNTI ".data, .grp (.clsPlus isWordChar),
   .lit " CU-UE-ID ".data, .grp (.clsPlus isDigitChar),
   .lit " ".data, .grp .wordDashWord,
   .lit " PH ".data, .grp (.clsPlus isDigitChar),
   .lit " dB PCMAX ".data, .grp (.clsPlus isDigitChar),
   .lit " dBm, average RSRP ".data, .grp .optNegDigits]

/-- UE (\w+): CQI (\d+), RI (\d+) -/
def ue_indicators_1 : List RElem :=
  [.lit "UE ".data, .grp (.clsPlus isWordChar),
   .lit ": CQI ".data, .grp (.clsPlus isDigitChar),
   .lit ", RI ".data, .grp (.clsPlus isDigitChar)]

/-- UE (\w+): UL-RI (\d+) -/
def ue_indicators_2 : List RElem :=
  [.lit "UE ".data, .grp (.clsPlus isWordChar),
   .lit ": UL-RI ".data, .grp (.clsPlus isDigitChar)]

/-- UE (\w+):.+ dlsch_errors (\d+), pucch0_DTX (\d+), BLER ([0-9.]+)
MCS .+ (\d+) -/
def dl_phy : List RElem :=
  [.lit "UE ".data, .grp (.clsPlus isWordChar), .lit ":".data, .dotPlus,
   .lit " dlsch_errors ".data, .grp (.clsPlus isDigitChar),
   .lit ", pucch0_DTX ".data, .grp (.clsPlus isDigitChar),
   .lit ", BLER ".data, .grp (.clsPlus isNumDotChar),
   .lit " MCS ".data, .dotPlus, .lit " ".data, .grp (.clsPlus isDigitChar)]

/-- UE (\w+):.+ ulsch_errors (\d+), ulsch_DTX (\d+), BLER ([0-9.]+)
MCS \(1\) (\d+) .+ NPRB (\d+)  SNR ([0-9.]+) -/
def ul_phy : List RElem :=
  [.lit "UE ".data, .grp (.clsPlus isWordChar), .lit ":".data, .dotPlus,
   .lit " ulsch_errors ".data, .grp (.clsPlus isDigitChar),
   .lit ", ulsch_DTX ".data, .grp (.clsPlus isDigitChar),
   .lit ", BLER ".data, .grp (.clsPlus isNumDotChar),
   .lit " MCS (1) ".data, .grp (.clsPlus isDigitChar),
   .lit " ".data, .dotPlus,
   .lit " NPRB ".data, .grp (.clsPlus isDigitChar),
   .lit "  SNR ".data, .grp (.clsPlus isNumDotChar)]

/-! ## Assembler branches (Parser::parse_line of part_000)

Each C++ statement temp_ue_data[r].field = conv(matches[i]) is embedded as:
evaluate the conversion first and, on success, perform the operator[]
insert-and-assign (C++17 sequences the right operand of = before the
left).  A failed conversion throws, leaving the statements before it
applied and skipping the rest of the branch; the err flag records that an
exception escaped parse_line into the caller's catch. -/

structure StepOut where
  temp : TMap
  emitted : List UEData
  err : Bool
  deriving DecidableEq

/-- Parser::create_ue_data: insert a value-initialized record stamped with
the current wall-clock time, only when the key is absent. -/
def create_ue_data (now : Int) (m : TMap) (rnti : String) : TMap :=
  match lookupT m rnti with
  | some _ => m
  | none => insertT m rnti { UEData.zero with rnti := rnti, timestamp := now }

/-- ue_basic_pattern branch.  Source order: create_ue_data, timestamp,
ue_id := stoi(matches[2]), state := matches[3], ph := stoi(matches[4]),
rsrp := stoi(matches[5]) — matches[5] is the PCMAX capture; the RSRP
capture (matches[6]) is never read and pcmax is never assigned. -/
def applyUeBasic (now : Int) (m : TMap) (g : Nat → String) : TMap × Bool :=
  let r := g 1
  let m := create_ue_data now m r
  let m := updT m r (fun d => { d with timestamp := now })
  match cppStoi (g 2) with
  | .error _ => (m, true)
  | .ok vId =>
    let m := updT m r (fun d => { d with ue_id := vId })
    let m := updT m r (fun d => { d with state := g 3 })
    match cppStoi (g 4) with
    | .error _ => (m, true)
    | .ok vPh =>
      let m := updT m r (fun d => { d with ph := vPh })
      match cppStoi (g 5) with
      | .error _ => (m, true)
      | .ok vR => (updT m r (fun d => { d with rsrp := (vR : ℚ) }), false)

/-- ue_indicators_1 branch: cqi := stoi(matches[2]), dl_ri := stoi(matches[3]). -/
def applyInd1 (m : TMap) (g : Nat → String) : TMap × Bool :=
  let r := g 1
  match cppStoi (g 2) with
  | .error _ => (m, true)
  | .ok vC =>
    let m := updT m r (fun d => { d with cqi := vC })
    match cppStoi (g 3) with
    | .error _ => (m, true)
    | .ok vR => (updT m r (fun d => { d with dl_ri := vR }), false)

/-- ue_indicators_2 branch: ul_ri := stoi(matches[2]). -/
def applyInd2 (m : TMap) (g : Nat → String) : TMap × Bool :=
  let r := g 1
  match cppStoi (g 2) with
  | .error _ => (m, true)
  | .ok v => (updT m r (fun d => { d with ul_ri := v }), false)

/-- dl_phy branch: dlsch_err, pucch_dtx, dl_bler (stod), dl_mcs. -/
def applyDlPhy (m : TMap) (g : Nat → String) : TMap × Bool :=
  let r := g 1
  match cppStoi (g 2) with
  | .error _ => (m, true)
  | .ok vE =>
    let m := updT m r (fun d => { d with dlsch_err := vE })
    match cppStoi (g 3) with
    | .error _ => (m, true)
    | .ok vD =>
      let m := updT m r (fun d => { d with pucch_dtx := vD })
      match cppStod (g 4) with
      | .error _ => (m, true)
      | .ok vB =>
        let m := updT m r (fun d => { d with dl_bler := vB })
        match cppStoi (g 5) with
        | .error _ => (m, true)
        | .ok vM => (updT m r (fun d => { d with dl_mcs := vM }), false)

/-- ul_phy (terminal) branch of part_000: ulsch_err, ulsch_dtx, ul_bler
(stod), ul_mcs, nprb, snr (stod), then data_queue.push(temp_ue_data[r]).
The store_data(r) call is commented out in this source, so the entry is
NOT erased here. -/
def applyUlPhy (m : TMap) (g : Nat → String) : StepOut :=
  let r := g 1
  match cppStoi (g 2) with
  | .error _ => ⟨m, [], true⟩
  | .ok vE =>
    let m := updT m r (fun d => { d with ulsch_err := vE })
    match cppStoi (g 3) with
    | .error _ => ⟨m, [], true⟩
    | .ok vD =>
      let m := updT m r (fun d => { d with ulsch_dtx := vD })
      match cppStod (g 4) with
      | .error _ => ⟨m, [], true⟩
      | .ok vB =>
        let m := updT m r (fun d => { d with ul_bler := vB })
        match cppStoi (g 5) with
        | .error _ => ⟨m, [], true⟩
        | .ok vM =>
          let m := updT m r (fun d => { d with ul_mcs := vM })
          match cppStoi (g 6) with
          | .error _ => ⟨m, [], true⟩
          | .ok vN =>
            let m := updT m r (fun d => { d with nprb := vN })
            match cppStod (g 7) with
            | .error _ => ⟨m, [], true⟩
            | .ok vS =>
              let m := updT m r (fun d => { d with snr := vS })
              ⟨m, [getE m r], false⟩

inductive Branch where
  | ueBasic | ind1 | ind2 | dlPhy | ulPhy
  deriving DecidableEq

/-- The first-match-wins if/else-if chain of Parser::parse_line. -/
def classify (line : String) : Option (Branch × List String) :=
  match searchP ue_basic_pattern line with
  | some c => some (.ueBasic, c)
  | none =>
    match searchP ue_indicators_1 line with
    | some c => some (.ind1, c)
    | none =>
      match searchP ue_indicators_2 line with
      | some c => some (.ind2, c)
      | none =>
        match searchP dl_phy line with
        | some c => some (.dlPhy, c)
        | none =>
          match searchP ul_phy line with
          | some c => some (.ulPhy, c)
          | none => none

/-- Parser::parse_line of part_000, taking the wall-clock time of this call
as a parameter (both std::time(nullptr) calls within one invocation are
modelled as returning the same value). -/
def parse_line (now : Int) (m : TMap) (line : String) : StepOut :=
  match classify line with
  | none => ⟨m, [], false⟩
  | some (.ueBasic, c) =>
      let p := applyUeBasic now m (capt c); ⟨p.1, [], p.2⟩
  | some (.ind1, c) => let p := applyInd1 m (capt c); ⟨p.1, [], p.2⟩
  | some (.ind2, c) => let p := applyInd2 m (capt c); ⟨p.1, [], p.2⟩
  | some (.dlPhy, c) => let p := applyDlPhy m (capt c); ⟨p.1, [], p.2⟩
  | some (.ulPhy, c) => applyUlPhy m (capt c)

/-- Sequential application of parse_line to a list of (arrival time, line)
pairs, with the caller's catch swallowing per-line exceptions — the
per-line behavior shared by parser_thread_func's body and the main loop of
the single-threaded variants.  Returns the final working map and the
completed records pushed onto the data queue, in emission order. -/
def runLines (m : TMap) : List (Int × String) → TMap × List UEData
  | [] => (m, [])
  | (now, l) :: rest =>
      let s := parse_line now m l
      let (m2, es) := runLines s.temp rest
      (m2, s.emitted ++ es)

/-! ## Writer side: store_data of part_000 and the CSV shape -/

/-- One CSV cell, tagged by how the source renders it (strftime for the
timestamp, stream insertion for the rest). -/
inductive Cell where
  | timeC (t : Int)
  | strC (s : String)
  | intC (n : Int)
  | ratC (q : ℚ)
  deriving DecidableEq

/-- The data row written by Parser::store_data (both the combined and the
per-entity branch use this same insertion order). -/
def rowCells (d : UEData) : List Cell :=
  [.timeC d.timestamp, .strC d.rnti, .intC d.ue_id, .strC d.state,
   .intC d.ph, .intC d.pcmax, .ratC d.rsrp, .intC d.cqi, .intC d.dl_ri,
   .intC d.ul_ri, .intC d.dlsch_err, .intC d.pucch_dtx, .ratC d.dl_bler,
   .intC d.dl_mcs, .intC d.ulsch_err, .intC d.ulsch_dtx, .ratC d.ul_bler,
   .intC d.ul_mcs, .intC d.nprb, .ratC d.snr]

/-- The header row written by the sources (identical string in part_000's
per-entity branch and in both main.cpp variants), split at the commas. -/
def csvHeader : List String :=
  ["timestamp", "rnti", "ue_id", "state", "ph", "pcmax", "rsrp", "cqi",
   "dl_ri", "ul_ri", "dlsch_err", "pucch_dtx", "dl_bler", "dl_mcs",
   "ulsch_err", "ulsch_dtx", "ul_bler", "ul_mcs", "nprb", "snr"]

/-- The cell a record holds for a given header column name. -/
def cellOfField (d : UEData) (name : String) : Cell :=
  if name = "timestamp" then .timeC d.timestamp
  else if name = "rnti" then .strC d.rnti
  else if name = "ue_id" then .intC d.ue_id
  else if name = "state" then .strC d.state
  else if name = "ph" then .intC d.ph
  else if name = "pcmax" then .intC d.pcmax
  else if name = "rsrp" then .ratC d.rsrp
  else if name = "cqi" then .intC d.cqi
  else if name = "dl_ri" then .intC d.dl_ri
  else if name = "ul_ri" then .intC d.ul_ri
  else if name = "dlsch_err" then .intC d.dlsch_err
  else if name = "pucch_dtx" then .intC d.pucch_dtx
  else if name = "dl_bler" then .ratC d.dl_bler
  else if name = "dl_mcs" then .intC d.dl_mcs
  else if name = "ulsch_err" then .intC d.ulsch_err
  else if name = "ulsch_dtx" then .intC d.ulsch_dtx
  else if name = "ul_bler" then .ratC d.ul_bler
  else if name = "ul_mcs" then .intC d.ul_mcs
  else if name = "nprb" then .intC d.nprb
  else if name = "snr" then .ratC d.snr
  else .strC ""

/-- The data row written by exportToCSV of main.cpp variant 2: after
pucch_dtx it inserts ulsch_err and ulsch_dtx BEFORE dl_bler and dl_mcs. -/
def rowCellsExport (d : UEData) : List Cell :=
  [.timeC d.timestamp, .strC d.rnti, .intC d.ue_id, .strC d.state,
   .intC d.ph, .intC d.pcmax, .ratC d.rsrp, .intC d.cqi, .intC d.dl_ri,
   .intC d.ul_ri, .intC d.dlsch_err, .intC d.pucch_dtx, .intC d.ulsch_err,
   .intC d.ulsch_dtx, .ratC d.dl_bler, .intC d.dl_mcs, .ratC d.ul_bler,
   .intC d.ul_mcs, .intC d.nprb, .ratC d.snr]

/-- Parser::store_data of part_000, abstracting the stream write to the
produced row: writes the record's row and only then erases that rnti's
entry from the working map. -/
def store_data (m : TMap) (d : UEData) : List Cell × TMap :=
  (rowCells d, eraseT m d.rnti)

/-! ## SafeQueue and the parser thread loop of part_000 -/

/-- SafeQueue::wait_pop observed at the moment the condition-variable wait
predicate (non-empty or done) holds, under the queue's single lock:
returns no value exactly in the done-and-empty branch, in which the C++
version leaves the caller's out-parameter untouched. -/
def wait_pop {α : Type} (q : List α) (dn : Bool) : Option α × List α :=
  if dn ∧ q.isEmpty then (none, q)
  else
    match q with
    | [] => (none, q)
    | x :: xs => (some x, xs)

/-- State of the parser thread after the reader has finished: the raw-line
queue contents, its done flag, Parser::done (the atomic member, set to
false in the constructor and never written again by any thread), the local
line buffer, the working map, and the records pushed so far. -/
structure LoopState where
  lineQueue : List String
  lineDone : Bool
  parserDone : Bool
  buf : String
  temp : TMap
  out : List UEData
  now : Int

/-- One iteration of parser_thread_func's while(true) body: wait_pop into
the line buffer (unchanged when the queue is done and empty), break when
line_queue.is_empty() && done — done being Parser::done — else parse the
buffer.  none means the loop exits via break. -/
def parserIter (st : LoopState) : Option LoopState :=
  let w := wait_pop st.lineQueue st.lineDone
  let b := w.1.getD st.buf
  if w.2.isEmpty ∧ st.parserDone then none
  else
    let s := parse_line st.now st.temp b
    some { st with lineQueue := w.2, buf := b, temp := s.temp,
                   out := st.out ++ s.emitted }

/-- Run up to n iterations of the parser loop; some st means the loop
exited (broke) leaving state st, none means it was still running after n
iterations. -/
def parserLoop : Nat → LoopState → Option LoopState
  | 0, _ => none
  | n + 1, st =>
      match parserIter st with
      | none => some st
      | some st2 => parserLoop n st2

/-! ## Field taxonomy: which branch writes which UEData member -/

inductive FieldName where
  | rnti | state | rsrp | pcmax | ue_id | ph | cqi | dl_ri | ul_ri
  | dlsch_err | pucch_dtx | dl_bler | dl_mcs | ulsch_err | ulsch_dtx
  | ul_bler | ul_mcs | nprb | snr | timestamp
  deriving DecidableEq

inductive FVal where
  | s (v : String)
  | i (v : Int)
  | q (v : ℚ)
  deriving DecidableEq

def fieldOf (d : UEData) : FieldName → FVal
  | .rnti => .s d.rnti
  | .state => .s d.state
  | .rsrp => .q d.rsrp
  | .pcmax => .i d.pcmax
  | .ue_id => .i d.ue_id
  | .ph => .i d.ph
  | .cqi => .i d.cqi
  | .dl_ri => .i d.dl_ri
  | .ul_ri => .i d.ul_ri
  | .dlsch_err => .i d.dlsch_err
  | .pucch_dtx => .i d.pucch_dtx
  | .dl_bler => .q d.dl_bler
  | .dl_mcs => .i d.dl_mcs
  | .ulsch_err => .i d.ulsch_err
  | .ulsch_dtx => .i d.ulsch_dtx
  | .ul_bler => .q d.ul_bler
  | .ul_mcs => .i d.ul_mcs
  | .nprb => .i d.nprb
  | .snr => .q d.snr
  | .timestamp => .i d.timestamp

/-- The zero value of each output field's type (empty token, 0, 0.0). -/
def zeroOf : FieldName → FVal
  | .rnti | .state => .s ""
  | .rsrp | .dl_bler | .ul_bler | .snr => .q 0
  | _ => .i 0

/-- The set of UEData members each parse_line branch may assign (create
included for the basic branch).  pcmax is assigned by no branch. -/
def writesF : Branch → FieldName → Bool
  | .ueBasic, .rnti | .ueBasic, .timestamp | .ueBasic, .ue_id
  | .ueBasic, .state | .ueBasic, .ph | .ueBasic, .rsrp => true
  | .ind1, .cqi | .ind1, .dl_ri => true
  | .ind2, .ul_ri => true
  | .dlPhy, .dlsch_err | .dlPhy, .pucch_dtx | .dlPhy, .dl_bler
  | .dlPhy, .dl_mcs => true
  | .ulPhy, .ulsch_err | .ulPhy, .ulsch_dtx | .ulPhy, .ul_bler
  | .ulPhy, .ul_mcs | .ulPhy, .nprb | .ulPhy, .snr => true
  | _, _ => false

/-! ## Derived observation helpers used in the claim statements -/

/-- The identifier captured by the basic-info pattern, when it matches. -/
def basicId (l : String) : Option String :=
  (searchP ue_basic_pattern l).map (fun c => capt c 1)

/-- Whether the ul_phy (terminal) pattern matches the line. -/
def isUl (l : String) : Bool := (searchP ul_phy l).isSome

/-- All six numeric conversions of the ul_phy branch succeed on these
captures. -/
def ulConvsOk (c : List String) : Bool :=
  isOkI (cppStoi (capt c 2)) && isOkI (cppStoi (capt c 3)) &&
  isOkQ (cppStod (capt c 4)) && isOkI (cppStoi (capt c 5)) &&
  isOkI (cppStoi (capt c 6)) && isOkQ (cppStod (capt c 7))

/-- A line that matches the terminal pattern matches no earlier pattern of
the first-match chain (vacuously true for non-terminal lines). -/
def ulOnly (l : String) : Bool :=
  match searchP ul_phy l with
  | some _ =>
      (searchP ue_basic_pattern l).isNone && (searchP ue_indicators_1 l).isNone
        && (searchP ue_indicators_2 l).isNone && (searchP dl_phy l).isNone
  | none => true

/-- A line that matches the terminal pattern has convertible numeric fields
(vacuously true for non-terminal lines). -/
def ulLineOk (l : String) : Bool :=
  match searchP ul_phy l with
  | some c => ulConvsOk c
  | none => true

/-! ## Concrete input lines (the documented Frame Slot example) -/

def ueBasicLine : String :=
  "UE RNTI 928c CU-UE-ID 1 in-sync PH 45 dB PCMAX 21 dBm, average RSRP -83 (17 meas)"

def cqiLine : String := "UE 928c: CQI 13, RI 2, PMI (0,0)"

def ulRiLine : String := "UE 928c: UL-RI 1, TPMI 0"

def dlLine : String :=
  "UE 928c: dlsch_rounds 681/10/1/0, dlsch_errors 0, pucch0_DTX 9, BLER 0.02678 MCS (1) 22"

def ulLine : String :=
  "UE 928c: ulsch_rounds 1136/77/0/0, ulsch_errors 0, ulsch_DTX 0, BLER 0.07390 MCS (1) 6 (Qm 4 deltaMCS 0 dB) NPRB 106  SNR 17.5 dB"

/-- The five-line 928c scenario, with arrival times 100..104. -/
def scenarioLines : List (Int × String) :=
  [(100, ueBasicLine), (101, cqiLine), (102, ulRiLine), (103, dlLine), (104, ulLine)]

/-- A structurally dl_phy-matching line whose BLER field is the non-numeric
token "." (std::stod throws invalid_argument on it). -/
def malformedDlLine : String :=
  "UE 928c: dlsch_rounds 1/0/0/0, dlsch_errors 5, pucch0_DTX 7, BLER . MCS (1) 22"

/-- A quality-indicator line for 928c arriving after its record completed. -/
def followCqiLine : String := "UE 928c: CQI 1, RI 1, PMI (0,0)"

/-- A structurally ul_phy-matching line whose SNR field is the non-numeric
token "." (std::stod throws on it, after the five earlier fields were
already assigned). -/
def malformedUlLine : String :=
  "UE 928c: ulsch_rounds 1/0/0/0, ulsch_errors 4, ulsch_DTX 3, BLER 0.5 MCS (1) 6 (Qm 4) NPRB 106  SNR . dB"

/-- The record the code emits for the 928c scenario: note pcmax = 0 (never
assigned) and rsrp = 21 (the PCMAX capture), timestamp = the basic line's
arrival time. -/
def scenarioRecord : UEData :=
  ⟨"928c", "in-sync", 21, 0, 1, 45, 13, 2, 1, 0, 9, mkRat 2678 100000, 22, 0, 0,
   mkRat 7390 100000, 6, 106, mkRat 175 10, 100⟩

/-! ## Map characterization lemmas -/

theorem lookupT_insertT (m : TMap) (r k : String) (v : UEData) :
    lookupT (insertT m r v) k = if k = r then some v else lookupT m k := by
  induction m with
  | nil =>
      simp only [insertT, lookupT]
      by_cases h : k = r
      · rw [if_pos h.symm, if_pos h]
      · rw [if_neg (fun hh => h hh.symm), if_neg h]
  | cons e rest ih =>
      simp only [insertT]
      by_cases h : e.1 = r
      · rw [if_pos h]
        simp only [lookupT]
        by_cases hk : k = r
        · rw [if_pos hk.symm, if_pos hk]
        · rw [if_neg (fun hh => hk hh.symm), if_neg hk,
              if_neg (fun hh => hk (hh.symm.trans h))]
      · rw [if_neg h]
        simp only [lookupT]
        by_cases hk : e.1 = k
        · rw [if_pos hk, if_pos hk, if_neg (fun hh => h (hk.trans hh))]
        · rw [if_neg hk, if_neg hk, ih]

theorem getE_updT (m : TMap) (r k : String) (f : UEData → UEData) :
    getE (updT m r f) k = if k = r then f (getE m r) else getE m k := by
  unfold updT getE
  rw [lookupT_insertT]
  by_cases h : k = r
  · rw [if_pos h, if_pos h]; rfl
  · rw [if_neg h, if_neg h]

theorem getE_create_ne (now : Int) (m : TMap) (r k : String) (h : k ≠ r) :
    getE (create_ue_data now m r) k = getE m k := by
  unfold create_ue_data
  cases lookupT m r with
  | some d => rfl
  | none =>
      unfold getE
      rw [lookupT_insertT, if_neg h]

/-! ## classify inversion lemmas -/

theorem classify_ueBasic_inv {l : String} {c : List String}
    (h : classify l = some (.ueBasic, c)) :
    searchP ue_basic_pattern l = some c := by
  unfold classify at h
  cases h1 : searchP ue_basic_pattern l with
  | some c1 => rw [h1] at h; injection h with h2; injection h2 with _ h3; rw [h3]
  | none =>
      rw [h1] at h
      cases h2 : searchP ue_indicators_1 l <;> rw [h2] at h
      case some => simp at h
      all_goals cases h3 : searchP ue_indicators_2 l <;> rw [h3] at h
      case some => simp at h
      all_goals cases h4 : searchP dl_phy l <;> rw [h4] at h
      case some => simp at h
      all_goals cases h5 : searchP ul_phy l <;> rw [h5] at h <;> simp at h

theorem classify_ulPhy_inv {l : String} {c : List String}
    (h : classify l = some (.ulPhy, c)) :
    searchP ue_basic_pattern l = none ∧ searchP ue_indicators_1 l = none ∧
    searchP ue_indicators_2 l = none ∧ searchP dl_phy l = none ∧
    searchP ul_phy l = some c := by
  unfold classify at h
  cases h1 : searchP ue_basic_pattern l <;> rw [h1] at h
  case some => simp at h
  cases h2 : searchP ue_indicators_1 l <;> rw [h2] at h
  case some => simp at h
  cases h3 : searchP ue_indicators_2 l <;> rw [h3] at h
  case some => simp at h
  cases h4 : searchP dl_phy l <;> rw [h4] at h
  case some => simp at h
  cases h5 : searchP ul_phy l <;> rw [h5] at h
  case none => simp at h
  case some c5 =>
      injection h with hh
      injection hh with _ hc
      exact ⟨rfl, rfl, rfl, rfl, by rw [hc]⟩

theorem classify_of_searchUl {l : String} {c : List String}
    (hb : searchP ue_basic_pattern l = none) (h1 : searchP ue_indicators_1 l = none)
    (h2 : searchP ue_indicators_2 l = none) (hd : searchP dl_phy l = none)
    (hu : searchP ul_phy l = some c) :
    classify l = some (.ulPhy, c) := by
  unfold classify
  rw [hb, h1, h2, hd, hu]

/-! ## Branch characterization lemmas -/

theorem applyUeBasic_ne (now : Int) (m : TMap) (g : Nat → String) (k : String)
    (h : k ≠ g 1) : getE (applyUeBasic now m g).1 k = getE m k := by
  unfold applyUeBasic
  rcases cppStoi (g 2) with _ | v2 <;>
    rcases cppStoi (g 4) with _ | v4 <;>
    rcases cppStoi (g 5) with _ | v5 <;>
    simp [getE_updT, if_neg h, getE_create_ne now m (g 1) k h]

theorem applyInd1_ne (m : TMap) (g : Nat → String) (k : String)
    (h : k ≠ g 1) : getE (applyInd1 m g).1 k = getE m k := by
  unfold applyInd1
  rcases cppStoi (g 2) with _ | v2 <;>
    rcases cppStoi (g 3) with _ | v3 <;>
    simp [getE_updT, if_neg h]

theorem applyInd2_ne (m : TMap) (g : Nat → String) (k : String)
    (h : k ≠ g 1) : getE (applyInd2 m g).1 k = getE m k := by
  unfold applyInd2
  rcases cppStoi (g 2) with _ | v2 <;> simp [getE_updT, if_neg h]

theorem applyDlPhy_ne (m : TMap) (g : Nat → String) (k : String)
    (h : k ≠ g 1) : getE (applyDlPhy m g).1 k = getE m k := by
  unfold applyDlPhy
  rcases cppStoi (g 2) with _ | v2 <;>
    rcases cppStoi (g 3) with _ | v3 <;>
    rcases cppStod (g 4) with _ | v4 <;>
    rcases cppStoi (g 5) with _ | v5 <;>
    simp [getE_updT, if_neg h]

theorem applyUlPhy_ne (m : TMap) (g : Nat → String) (k : String)
    (h : k ≠ g 1) : getE (applyUlPhy m g).temp k = getE m k := by
  unfold applyUlPhy
  rcases cppStoi (g 2) with _ | v2 <;>
    rcases cppStoi (g 3) with _ | v3 <;>
    rcases cppStod (g 4) with _ | v4 <;>
    rcases cppStoi (g 5) with _ | v5 <;>
    rcases cppStoi (g 6) with _ | v6 <;>
    rcases cppStod (g 7) with _ | v7 <;>
    simp [getE_updT, if_neg h]

theorem getE_create_field (now : Int) (m : TMap) (r : String) (f : FieldName)
    (hr : f ≠ .rnti) (ht : f ≠ .timestamp) :
    fieldOf (getE (create_ue_data now m r) r) f = fieldOf (getE m r) f := by
  unfold create_ue_data
  rcases hl : lookupT m r with _ | d
  · unfold getE
    rw [hl, lookupT_insertT, if_pos rfl]
    cases f <;> simp_all [fieldOf]
  · rfl

theorem applyUeBasic_field (now : Int) (m : TMap) (g : Nat → String)
    (k : String) (f : FieldName) (hf : writesF .ueBasic f = false) :
    fieldOf (getE (applyUeBasic now m g).1 k) f = fieldOf (getE m k) f := by
  by_cases hk : k = g 1
  · subst hk
    have hcr : fieldOf (getE (create_ue_data now m (g 1)) (g 1)) f
        = fieldOf (getE m (g 1)) f :=
      getE_create_field now m (g 1) f
        (by rintro rfl; simp [writesF] at hf)
        (by rintro rfl; simp [writesF] at hf)
    have hts : f ≠ .timestamp := by rintro rfl; simp [writesF] at hf
    have hid : f ≠ .ue_id := by rintro rfl; simp [writesF] at hf
    have hst : f ≠ .state := by rintro rfl; simp [writesF] at hf
    have hph : f ≠ .ph := by rintro rfl; simp [writesF] at hf
    have hrs : f ≠ .rsrp := by rintro rfl; simp [writesF] at hf
    unfold applyUeBasic
    rcases cppStoi (g 2) with _ | v2 <;>
      rcases cppStoi (g 4) with _ | v4 <;>
      rcases cppStoi (g 5) with _ | v5 <;>
      simp [getE_updT] <;>
      rw [← hcr] <;>
      (try generalize getE (create_ue_data now m (g 1)) (g 1) = d) <;>
      cases f <;> simp_all [fieldOf, writesF]
  · rw [applyUeBasic_ne now m g k hk]

theorem applyInd1_field (m : TMap) (g : Nat → String) (k : String)
    (f : FieldName) (hf : writesF .ind1 f = false) :
    fieldOf (getE (applyInd1 m g).1 k) f = fieldOf (getE m k) f := by
  by_cases hk : k = g 1
  · subst hk
    have h1 : f ≠ .cqi := by rintro rfl; simp [writesF] at hf
    have h2 : f ≠ .dl_ri := by rintro rfl; simp [writesF] at hf
    unfold applyInd1
    rcases cppStoi (g 2) with _ | v2 <;>
      rcases cppStoi (g 3) with _ | v3 <;>
      simp [getE_updT] <;>
      (try generalize getE m (g 1) = d) <;>
      cases f <;> simp_all [fieldOf, writesF]
  · rw [applyInd1_ne m g k hk]

theorem applyInd2_field (m : TMap) (g : Nat → String) (k : String)
    (f : FieldName) (hf : writesF .ind2 f = false) :
    fieldOf (getE (applyInd2 m g).1 k) f = fieldOf (getE m k) f := by
  by_cases hk : k = g 1
  · subst hk
    have h1 : f ≠ .ul_ri := by rintro rfl; simp [writesF] at hf
    unfold applyInd2
    rcases cppStoi (g 2) with _ | v2 <;>
      simp [getE_updT] <;>
      (try generalize getE m (g 1) = d) <;>
      cases f <;> simp_all [fieldOf, writesF]
  · rw [applyInd2_ne m g k hk]

theorem applyDlPhy_field (m : TMap) (g : Nat → String) (k : String)
    (f : FieldName) (hf : writesF .dlPhy f = false) :
    fieldOf (getE (applyDlPhy m g).1 k) f = fieldOf (getE m k) f := by
  by_cases hk : k = g 1
  · subst hk
    have h1 : f ≠ .dlsch_err := by rintro rfl; simp [writesF] at hf
    have h2 : f ≠ .pucch_dtx := by rintro rfl; simp [writesF] at hf
    have h3 : f ≠ .dl_bler := by rintro rfl; simp [writesF] at hf
    have h4 : f ≠ .dl_mcs := by rintro rfl; simp [writesF] at hf
    unfold applyDlPhy
    rcases cppStoi (g 2) with _ | v2 <;>
      rcases cppStoi (g 3) with _ | v3 <;>
      rcases cppStod (g 4) with _ | v4 <;>
      rcases cppStoi (g 5) with _ | v5 <;>
      simp [getE_updT] <;>
      (try generalize getE m (g 1) = d) <;>
      cases f <;> simp_all [fieldOf, writesF]
  · rw [applyDlPhy_ne m g k hk]

theorem applyUlPhy_field (m : TMap) (g : Nat → String) (k : String)
    (f : FieldName) (hf : writesF .ulPhy f = false) :
    fieldOf (getE (applyUlPhy m g).temp k) f = fieldOf (getE m k) f := by
  by_cases hk : k = g 1
  · subst hk
    have h1 : f ≠ .ulsch_err := by rintro rfl; simp [writesF] at hf
    have h2 : f ≠ .ulsch_dtx := by rintro rfl; simp [writesF] at hf
    have h3 : f ≠ .ul_bler := by rintro rfl; simp [writesF] at hf
    have h4 : f ≠ .ul_mcs := by rintro rfl; simp [writesF] at hf
    have h5 : f ≠ .nprb := by rintro rfl; simp [writesF] at hf
    have h6 : f ≠ .snr := by rintro rfl; simp [writesF] at hf
    unfold applyUlPhy
    rcases cppStoi (g 2) with _ | v2 <;>
      rcases cppStoi (g 3) with _ | v3 <;>
      rcases cppStod (g 4) with _ | v4 <;>
      rcases cppStoi (g 5) with _ | v5 <;>
      rcases cppStoi (g 6) with _ | v6 <;>
      rcases cppStod (g 7) with _ | v7 <;>
      simp [getE_updT] <;>
      (try generalize getE m (g 1) = d) <;>
      cases f <;> simp_all [fieldOf, writesF]
  · rw [applyUlPhy_ne m g k hk]

theorem applyUeBasic_timestamp (now : Int) (m : TMap) (g : Nat → String) :
    (getE (applyUeBasic now m g).1 (g 1)).timestamp = now := by
  unfold applyUeBasic
  rcases cppStoi (g 2) with _ | v2 <;>
    rcases cppStoi (g 4) with _ | v4 <;>
    rcases cppStoi (g 5) with _ | v5 <;>
    simp [getE_updT]

theorem applyUlPhy_emit_mem (m : TMap) (g : Nat → String) :
    ∀ d ∈ (applyUlPhy m g).emitted, d = getE (applyUlPhy m g).temp (g 1) := by
  unfold applyUlPhy
  rcases cppStoi (g 2) with _ | v2 <;>
    rcases cppStoi (g 3) with _ | v3 <;>
    rcases cppStod (g 4) with _ | v4 <;>
    rcases cppStoi (g 5) with _ | v5 <;>
    rcases cppStoi (g 6) with _ | v6 <;>
    rcases cppStod (g 7) with _ | v7 <;>
    simp

theorem applyUlPhy_emit_or (m : TMap) (g : Nat → String) :
    (applyUlPhy m g).emitted = [] ∨ (applyUlPhy m g).err = false := by
  unfold applyUlPhy
  rcases cppStoi (g 2) with _ | v2 <;>
    rcases cppStoi (g 3) with _ | v3 <;>
    rcases cppStod (g 4) with _ | v4 <;>
    rcases cppStoi (g 5) with _ | v5 <;>
    rcases cppStoi (g 6) with _ | v6 <;>
    rcases cppStod (g 7) with _ | v7 <;>
    simp

theorem applyUlPhy_emit_ok (m : TMap) (c : List String)
    (h : ulConvsOk c = true) :
    (applyUlPhy m (capt c)).emitted
        = [getE (applyUlPhy m (capt c)).temp (capt c 1)]
      ∧ (applyUlPhy m (capt c)).err = false := by
  unfold ulConvsOk at h
  simp only [Bool.and_eq_true] at h
  obtain ⟨⟨⟨⟨⟨h2, h3⟩, h4⟩, h5⟩, h6⟩, h7⟩ := h
  unfold applyUlPhy
  rcases e2 : cppStoi (capt c 2) with _ | v2
  · rw [e2] at h2; simp [isOkI] at h2
  rcases e3 : cppStoi (capt c 3) with _ | v3
  · rw [e3] at h3; simp [isOkI] at h3
  rcases e4 : cppStod (capt c 4) with _ | v4
  · rw [e4] at h4; simp [isOkQ] at h4
  rcases e5 : cppStoi (capt c 5) with _ | v5
  · rw [e5] at h5; simp [isOkI] at h5
  rcases e6 : cppStoi (capt c 6) with _ | v6
  · rw [e6] at h6; simp [isOkI] at h6
  rcases e7 : cppStod (capt c 7) with _ | v7
  · rw [e7] at h7; simp [isOkQ] at h7
  simp

/-! ## parse_line-level lemmas -/

theorem parse_line_none {l : String} (now : Int) (m : TMap)
    (h : classify l = none) : parse_line now m l = ⟨m, [], false⟩ := by
  unfold parse_line
  rw [h]

theorem parse_line_ne {l : String} {b : Branch} {c : List String}
    (now : Int) (m : TMap) (k : String)
    (h : classify l = some (b, c)) (hk : k ≠ capt c 1) :
    getE (parse_line now m l).temp k = getE m k := by
  unfold parse_line
  rw [h]
  cases b
  · exact applyUeBasic_ne now m (capt c) k hk
  · exact applyInd1_ne m (capt c) k hk
  · exact applyInd2_ne m (capt c) k hk
  · exact applyDlPhy_ne m (capt c) k hk
  · exact applyUlPhy_ne m (capt c) k hk

theorem parse_line_field {l : String} {b : Branch} {c : List String}
    (now : Int) (m : TMap) (k : String) (f : FieldName)
    (h : classify l = some (b, c)) (hf : writesF b f = false) :
    fieldOf (getE (parse_line now m l).temp k) f = fieldOf (getE m k) f := by
  unfold parse_line
  rw [h]
  cases b
  · exact applyUeBasic_field now m (capt c) k f hf
  · exact applyInd1_field m (capt c) k f hf
  · exact applyInd2_field m (capt c) k f hf
  · exact applyDlPhy_field m (capt c) k f hf
  · exact applyUlPhy_field m (capt c) k f hf

theorem parse_line_emit_nonUl {l : String} {b : Branch} {c : List String}
    (now : Int) (m : TMap)
    (h : classify l = some (b, c)) (hb : b ≠ .ulPhy) :
    (parse_line now m l).emitted = [] := by
  unfold parse_line
  rw [h]
  cases b
  · rfl
  · rfl
  · rfl
  · rfl
  · exact absurd rfl hb

theorem parse_line_emit_mem {l : String} {c : List String}
    (now : Int) (m : TMap) (h : classify l = some (.ulPhy, c)) :
    ∀ d ∈ (parse_line now m l).emitted,
      d = getE (parse_line now m l).temp (capt c 1) := by
  unfold parse_line
  rw [h]
  exact applyUlPhy_emit_mem m (capt c)

theorem parse_line_emit_ok {l : String} {c : List String}
    (now : Int) (m : TMap) (h : classify l = some (.ulPhy, c))
    (hok : ulConvsOk c = true) :
    (parse_line now m l).emitted
      = [getE (parse_line now m l).temp (capt c 1)] := by
  unfold parse_line
  rw [h]
  exact (applyUlPhy_emit_ok m c hok).1

theorem parse_line_timestamp_basic {l : String} {c : List String}
    (now : Int) (m : TMap) (hb : searchP ue_basic_pattern l = some c) :
    (getE (parse_line now m l).temp (capt c 1)).timestamp = now := by
  have h : classify l = some (.ueBasic, c) := by
    unfold classify
    rw [hb]
  unfold parse_line
  rw [h]
  exact applyUeBasic_timestamp now m (capt c)

/-! ## runLines-level lemmas -/

theorem runLines_cons (m : TMap) (now : Int) (l : String)
    (rest : List (Int × String)) :
    runLines m ((now, l) :: rest)
      = ((runLines (parse_line now m l).temp rest).1,
         (parse_line now m l).emitted
           ++ (runLines (parse_line now m l).temp rest).2) := by
  rcases h : runLines (parse_line now m l).temp rest with ⟨m2, es⟩
  simp only [runLines, h]

theorem runLines_field_inv (p : List (Int × String)) (m : TMap)
    (k : String) (f : FieldName)
    (hf : ∀ q ∈ p, ∀ b c, classify q.2 = some (b, c) → capt c 1 = k →
      writesF b f = false) :
    fieldOf (getE (runLines m p).1 k) f = fieldOf (getE m k) f := by
  induction p generalizing m with
  | nil => rfl
  | cons q rest ih =>
      obtain ⟨now, l⟩ := q
      rw [runLines_cons]
      simp only
      have step : fieldOf (getE (parse_line now m l).temp k) f
          = fieldOf (getE m k) f := by
        cases hcl : classify l with
        | none => rw [parse_line_none now m hcl]
        | some bc =>
            obtain ⟨b, c⟩ := bc
            by_cases hk : capt c 1 = k
            · exact parse_line_field now m k f hcl
                (hf (now, l) (List.mem_cons_self _ _) b c hcl hk)
            · rw [parse_line_ne now m k hcl (fun hh => hk hh.symm)]
      rw [ih (parse_line now m l).temp
            (fun q hq b c hcl hk => hf q (List.mem_cons_of_mem _ hq) b c hcl hk),
          step]

theorem runLines_count (p : List (Int × String)) (m : TMap)
    (H1 : ∀ q ∈ p, ulOnly q.2 = true)
    (H2 : ∀ q ∈ p, ulLineOk q.2 = true) :
    (runLines m p).2.length = (p.filter (fun q => isUl q.2)).length := by
  induction p generalizing m with
  | nil => rfl
  | cons q rest ih =>
      obtain ⟨now, l⟩ := q
      rw [runLines_cons]
      have h1 := H1 (now, l) (List.mem_cons_self _ _)
      have h2 := H2 (now, l) (List.mem_cons_self _ _)
      have ihr := ih (parse_line now m l).temp
        (fun q hq => H1 q (List.mem_cons_of_mem _ hq))
        (fun q hq => H2 q (List.mem_cons_of_mem _ hq))
      cases hu : searchP ul_phy l with
      | none =>
          have hemit : (parse_line now m l).emitted = [] := by
            cases hcl : classify l with
            | none => rw [parse_line_none now m hcl]
            | some bc =>
                obtain ⟨b, c⟩ := bc
                cases b
                case ulPhy =>
                    have := (classify_ulPhy_inv hcl).2.2.2.2
                    rw [hu] at this
                    exact absurd this (by simp)
                all_goals exact parse_line_emit_nonUl now m hcl (by simp)
          have hful : isUl l = false := by simp [isUl, hu]
          simp [hemit, hful, ihr]
      | some c =>
          unfold ulOnly at h1
          unfold ulLineOk at h2
          rw [hu] at h1 h2
          simp only [Bool.and_eq_true, Option.isNone_iff_eq_none] at h1
          have hcl : classify l = some (.ulPhy, c) :=
            classify_of_searchUl h1.1.1.1 h1.1.1.2 h1.1.2 h1.2 hu
          have hemit := parse_line_emit_ok now m hcl h2
          have hful : isUl l = true := by simp [isUl, hu]
          simp [hemit, hful, ihr]

/-! ## Claim theorems -/

/-- Claim C1 (code bug): the claim says the assembler exits its loop after
the raw-line queue is closed and drained and then closes the
completed-record queue.  In part_000 the loop's break condition tests
Parser::done, an atomic set to false in the constructor and never written
again; with it false the parser loop never exits, for any number of
iterations, whatever the queue contents. -/
theorem c1_parser_loop_never_exits (n : Nat) (st : LoopState)
    (hq : st.lineDone = true) (hd : st.parserDone = false) :
    parserLoop n st = none := by
  induction n generalizing st with
  | zero => rfl
  | succ n ih =>
      have hit : parserIter st
          = some { st with
              lineQueue := (wait_pop st.lineQueue st.lineDone).2,
              buf := (wait_pop st.lineQueue st.lineDone).1.getD st.buf,
              temp := (parse_line st.now st.temp
                ((wait_pop st.lineQueue st.lineDone).1.getD st.buf)).temp,
              out := st.out ++ (parse_line st.now st.temp
                ((wait_pop st.lineQueue st.lineDone).1.getD st.buf)).emitted } := by
        unfold parserIter
        rw [hd]
        simp
      simp only [parserLoop]
      rw [hit]
      exact ih _ hq hd

/-- Witness for C1 at a concrete post-reader state: empty closed queue,
Parser::done still false — the loop is still running after 5 iterations. -/
theorem c1_parser_loop_never_exits_witness :
    parserLoop 5 ⟨[], true, false, "", [], [], 0⟩ = none :=
  c1_parser_loop_never_exits 5 ⟨[], true, false, "", [], [], 0⟩ rfl rfl

set_option maxRecDepth 16000 in
/-- Claim C2 (code bug): the claim says the in-progress entry is erased
synchronously at finalization, before any later line for the identifier.
In part_000 the terminal branch only pushes (store_data is commented out),
so after the 928c scenario the entry is still in the working map, and a
subsequent quality line for 928c mutates the leftover completed record,
inheriting ph = 45 from it; the erase happens only in store_data, run by
the writer thread. -/
theorem c2_erase_deferred_to_writer :
    (lookupT (runLines [] scenarioLines).1 "928c").isSome = true
    ∧ (getE (parse_line 200 (runLines [] scenarioLines).1 followCqiLine).temp
        "928c").ph = 45
    ∧ (getE (parse_line 200 (runLines [] scenarioLines).1 followCqiLine).temp
        "928c").cqi = 1
    ∧ lookupT (store_data (runLines [] scenarioLines).1
        ((runLines [] scenarioLines).2.headD UEData.zero)).2 "928c" = none := by
  decide

set_option maxRecDepth 16000 in
/-- Claim C3 (code bug): evaluating the five-line 928c scenario: exactly one
record is emitted, with ue_id 1, state in-sync, ph 45 — but pcmax stays 0
(never assigned by any branch) and rsrp becomes 21 (the code reads
matches[5], the PCMAX capture, into rsrp and never reads the RSRP capture
matches[6]), contradicting the claimed pcmax = 21 and rsrp = -83. -/
theorem c3_scenario_eval :
    (runLines [] scenarioLines).2 = [scenarioRecord]
    ∧ scenarioRecord.pcmax = 0 ∧ scenarioRecord.rsrp = 21
    ∧ scenarioRecord.pcmax ≠ 21 ∧ scenarioRecord.rsrp ≠ -83 := by
  decide

set_option maxRecDepth 16000 in
/-- Counterexample to C4 as stated: a dl-scheduling line with BLER "." is
reported and skipped (err = true, nothing emitted), yet the in-progress
928c record is NOT left as it was: dlsch_err and pucch_dtx, assigned
before the failing conversion, are changed from 0 to 5 and 7. -/
theorem c4_counterexample :
    (parse_line 101 (parse_line 100 [] ueBasicLine).temp malformedDlLine).err
      = true
    ∧ (getE (parse_line 100 [] ueBasicLine).temp "928c").dlsch_err = 0
    ∧ (getE (parse_line 101 (parse_line 100 [] ueBasicLine).temp
        malformedDlLine).temp "928c").dlsch_err = 5
    ∧ (getE (parse_line 101 (parse_line 100 [] ueBasicLine).temp
        malformedDlLine).temp "928c").pucch_dtx = 7 := by
  decide

/-- Claim C4 amended: a line that structurally matches any rule but fails a
numeric conversion is skipped (nothing is emitted, the exception is caught)
and processing continues with the next line, but the fields the rule
assigns before the failing conversion remain written and fields at and
after it are unchanged.  The theorem characterizes every branch at every
failure point: whenever a line raises an error nothing is emitted and the
driver continues; for each branch and each conversion of the branch, if
the earlier conversions succeed and that one fails, the resulting working
map is exactly the original with the preceding assignments applied. -/
theorem c4_amended_prefix_writes (m : TMap) (now : Int) (l : String)
    (rest : List (Int × String)) :
    ((parse_line now m l).err = true → (parse_line now m l).emitted = [])
    ∧ runLines m ((now, l) :: rest)
        = ((runLines (parse_line now m l).temp rest).1,
           (parse_line now m l).emitted
             ++ (runLines (parse_line now m l).temp rest).2)
    ∧ (∀ c, classify l = some (.ueBasic, c) →
        (∀ e, cppStoi (capt c 2) = .error e →
          parse_line now m l
            = ⟨updT (create_ue_data now m (capt c 1)) (capt c 1)
                  (fun d => { d with timestamp := now }), [], true⟩)
        ∧ (∀ v2 e, cppStoi (capt c 2) = .ok v2 →
            cppStoi (capt c 4) = .error e →
            parse_line now m l
              = ⟨updT (updT (updT (create_ue_data now m (capt c 1)) (capt c 1)
                    (fun d => { d with timestamp := now })) (capt c 1)
                    (fun d => { d with ue_id := v2 })) (capt c 1)
                    (fun d => { d with state := capt c 3 }), [], true⟩)
        ∧ (∀ v2 v4 e, cppStoi (capt c 2) = .ok v2 →
            cppStoi (capt c 4) = .ok v4 → cppStoi (capt c 5) = .error e →
            parse_line now m l
              = ⟨updT (updT (updT (updT (create_ue_data now m (capt c 1))
                    (capt c 1) (fun d => { d with timestamp := now }))
                    (capt c 1) (fun d => { d with ue_id := v2 })) (capt c 1)
                    (fun d => { d with state := capt c 3 })) (capt c 1)
                    (fun d => { d with ph := v4 }), [], true⟩))
    ∧ (∀ c, classify l = some (.ind1, c) →
        (∀ e, cppStoi (capt c 2) = .error e →
          parse_line now m l = ⟨m, [], true⟩)
        ∧ (∀ v2 e, cppStoi (capt c 2) = .ok v2 →
            cppStoi (capt c 3) = .error e →
            parse_line now m l
              = ⟨updT m (capt c 1) (fun d => { d with cqi := v2 }), [], true⟩))
    ∧ (∀ c, classify l = some (.ind2, c) →
        ∀ e, cppStoi (capt c 2) = .error e →
          parse_line now m l = ⟨m, [], true⟩)
    ∧ (∀ c, classify l = some (.dlPhy, c) →
        (∀ e, cppStoi (capt c 2) = .error e →
          parse_line now m l = ⟨m, [], true⟩)
        ∧ (∀ v2 e, cppStoi (capt c 2) = .ok v2 →
            cppStoi (capt c 3) = .error e →
            parse_line now m l
              = ⟨updT m (capt c 1) (fun d => { d with dlsch_err := v2 }),
                 [], true⟩)
        ∧ (∀ v2 v3 e, cppStoi (capt c 2) = .ok v2 →
            cppStoi (capt c 3) = .ok v3 → cppStod (capt c 4) = .error e →
            parse_line now m l
              = ⟨updT (updT m (capt c 1) (fun d => { d with dlsch_err := v2 }))
                    (capt c 1) (fun d => { d with pucch_dtx := v3 }),
                 [], true⟩)
        ∧ (∀ v2 v3 v4 e, cppStoi (capt c 2) = .ok v2 →
            cppStoi (capt c 3) = .ok v3 → cppStod (capt c 4) = .ok v4 →
            cppStoi (capt c 5) = .error e →
            parse_line now m l
              = ⟨updT (updT (updT m (capt c 1)
                    (fun d => { d with dlsch_err := v2 })) (capt c 1)
                    (fun d => { d with pucch_dtx := v3 })) (capt c 1)
                    (fun d => { d with dl_bler := v4 }), [], true⟩))
    ∧ (∀ c, classify l = some (.ulPhy, c) →
        (∀ e, cppStoi (capt c 2) = .error e →
          parse_line now m l = ⟨m, [], true⟩)
        ∧ (∀ v2 e, cppStoi (capt c 2) = .ok v2 →
            cppStoi (capt c 3) = .error e →
            parse_line now m l
              = ⟨updT m (capt c 1) (fun d => { d with ulsch_err := v2 }),
                 [], true⟩)
        ∧ (∀ v2 v3 e, cppStoi (capt c 2) = .ok v2 →
            cppStoi (capt c 3) = .ok v3 → cppStod (capt c 4) = .error e →
            parse_line now m l
              = ⟨updT (updT m (capt c 1) (fun d => { d with ulsch_err := v2 }))
                    (capt c 1) (fun d => { d with ulsch_dtx := v3 }),
                 [], true⟩)
        ∧ (∀ v2 v3 v4 e, cppStoi (capt c 2) = .ok v2 →
            cppStoi (capt c 3) = .ok v3 → cppStod (capt c 4) = .ok v4 →
            cppStoi (capt c 5) = .error e →
            parse_line now m l
              = ⟨updT (updT (updT m (capt c 1)
                    (fun d => { d with ulsch_err := v2 })) (capt c 1)
                    (fun d => { d with ulsch_dtx := v3 })) (capt c 1)
                    (fun d => { d with ul_bler := v4 }), [], true⟩)
        ∧ (∀ v2 v3 v4 v5 e, cppStoi (capt c 2) = .ok v2 →
            cppStoi (capt c 3) = .ok v3 → cppStod (capt c 4) = .ok v4 →
            cppStoi (capt c 5) = .ok v5 → cppStoi (capt c 6) = .error e →
            parse_line now m l
              = ⟨updT (updT (updT (updT m (capt c 1)
                    (fun d => { d with ulsch_err := v2 })) (capt c 1)
                    (fun d => { d with ulsch_dtx := v3 })) (capt c 1)
                    (fun d => { d with ul_bler := v4 })) (capt c 1)
                    (fun d => { d with ul_mcs := v5 }), [], true⟩)
        ∧ (∀ v2 v3 v4 v5 v6 e, cppStoi (capt c 2) = .ok v2 →
            cppStoi (capt c 3) = .ok v3 → cppStod (capt c 4) = .ok v4 →
            cppStoi (capt c 5) = .ok v5 → cppStoi (capt c 6) = .ok v6 →
            cppStod (capt c 7) = .error e →
            parse_line now m l
              = ⟨updT (updT (updT (updT (updT m (capt c 1)
                    (fun d => { d with ulsch_err := v2 })) (capt c 1)
                    (fun d => { d with ulsch_dtx := v3 })) (capt c 1)
                    (fun d => { d with ul_bler := v4 })) (capt c 1)
                    (fun d => { d with ul_mcs := v5 })) (capt c 1)
                    (fun d => { d with nprb := v6 }), [], true⟩)) := by
  refine ⟨?_, runLines_cons m now l rest, ?_, ?_, ?_, ?_, ?_⟩
  · intro herr
    cases hcl : classify l with
    | none => rw [parse_line_none now m hcl]
    | some bc =>
        obtain ⟨b, c⟩ := bc
        cases b
        case ulPhy =>
            rcases applyUlPhy_emit_or m (capt c) with hde | hde
            · unfold parse_line
              rw [hcl]
              exact hde
            · unfold parse_line at herr
              rw [hcl] at herr
              exact absurd (hde.symm.trans herr) (by simp)
        all_goals exact parse_line_emit_nonUl now m hcl (by simp)
  · intro c hcl
    refine ⟨?_, ?_, ?_⟩
    · intro e h2
      simp only [parse_line, hcl]
      simp only [applyUeBasic, h2]
    · intro v2 e h2 h4
      simp only [parse_line, hcl]
      simp only [applyUeBasic, h2, h4]
    · intro v2 v4 e h2 h4 h5
      simp only [parse_line, hcl]
      simp only [applyUeBasic, h2, h4, h5]
  · intro c hcl
    refine ⟨?_, ?_⟩
    · intro e h2
      simp only [parse_line, hcl]
      simp only [applyInd1, h2]
    · intro v2 e h2 h3
      simp only [parse_line, hcl]
      simp only [applyInd1, h2, h3]
  · intro c hcl e h2
    simp only [parse_line, hcl]
    simp only [applyInd2, h2]
  · intro c hcl
    refine ⟨?_, ?_, ?_, ?_⟩
    · intro e h2
      simp only [parse_line, hcl]
      simp only [applyDlPhy, h2]
    · intro v2 e h2 h3
      simp only [parse_line, hcl]
      simp only [applyDlPhy, h2, h3]
    · intro v2 v3 e h2 h3 h4
      simp only [parse_line, hcl]
      simp only [applyDlPhy, h2, h3, h4]
    · intro v2 v3 v4 e h2 h3 h4 h5
      simp only [parse_line, hcl]
      simp only [applyDlPhy, h2, h3, h4, h5]
  · intro c hcl
    refine ⟨?_, ?_, ?_, ?_, ?_, ?_⟩
    · intro e h2
      simp only [parse_line, hcl]
      simp only [applyUlPhy, h2]
    · intro v2 e h2 h3
      simp only [parse_line, hcl]
      simp only [applyUlPhy, h2, h3]
    · intro v2 v3 e h2 h3 h4
      simp only [parse_line, hcl]
      simp only [applyUlPhy, h2, h3, h4]
    · intro v2 v3 v4 e h2 h3 h4 h5
      simp only [parse_line, hcl]
      simp only [applyUlPhy, h2, h3, h4, h5]
    · intro v2 v3 v4 v5 e h2 h3 h4 h5 h6
      simp only [parse_line, hcl]
      simp only [applyUlPhy, h2, h3, h4, h5, h6]
    · intro v2 v3 v4 v5 v6 e h2 h3 h4 h5 h6 h7
      simp only [parse_line, hcl]
      simp only [applyUlPhy, h2, h3, h4, h5, h6, h7]

set_option maxRecDepth 16000 in
/-- Witness for the amended C4 at two malformed lines: a dl-scheduling line
failing at BLER keeps dlsch_err and pucch_dtx, and a terminal line failing
at SNR keeps the five fields assigned before it while emitting nothing and
leaving snr unchanged. -/
theorem c4_amended_prefix_writes_witness :
    (parse_line 0 [] malformedDlLine).err = true
    ∧ (parse_line 0 [] malformedDlLine).emitted = []
    ∧ (getE (parse_line 0 [] malformedDlLine).temp "928c").dlsch_err = 5
    ∧ (getE (parse_line 0 [] malformedDlLine).temp "928c").pucch_dtx = 7
    ∧ (parse_line 0 [] malformedUlLine).err = true
    ∧ (parse_line 0 [] malformedUlLine).emitted = []
    ∧ (getE (parse_line 0 [] malformedUlLine).temp "928c").ulsch_err = 4
    ∧ (getE (parse_line 0 [] malformedUlLine).temp "928c").nprb = 106
    ∧ (getE (parse_line 0 [] malformedUlLine).temp "928c").snr = 0 := by
  have hdl := ((c4_amended_prefix_writes [] 0 malformedDlLine []).2.2.2.2.2.1
    ["928c", "5", "7", ".", "22"] (by decide)).2.2.1 5 7 ConvErr.invalidArgument
    (by decide) (by decide) (by decide)
  have hul := ((c4_amended_prefix_writes [] 0 malformedUlLine []).2.2.2.2.2.2
    ["928c", "4", "3", "0.5", "6", "106", "."] (by decide)).2.2.2.2.2
    4 3 (mkRat 1 2) 6 106 ConvErr.invalidArgument
    (by decide) (by decide) (by decide) (by decide) (by decide) (by decide)
  rw [hdl, hul]
  exact ⟨rfl, rfl, by decide, by decide, rfl, rfl, by decide, by decide,
         by decide⟩

set_option maxRecDepth 16000 in
/-- Counterexample to C5 as stated: a terminal line with no prior lines for
its identifier (the claim's hypothesis holds — the line itself carries all
the terminal rule's fields) emits exactly one record, but the record does
not carry the identifier 928c extracted from the line: its rnti field is
the empty string, because only the basic-info branch ever sets rnti. -/
theorem c5_counterexample :
    (runLines [] [((0 : Int), ulLine)]).2.length = 1
    ∧ (runLines [] [((0 : Int), ulLine)]).2.map (fun d => d.rnti)
        ≠ ["928c"] := by
  decide

/-- Claim C5 amended: when every ul_phy-matching line is classified to the
terminal rule (matches no earlier pattern) and its six conversions succeed,
the number of emitted records equals the number of ul_phy-matching lines;
each such line emits exactly the snapshot of the working-map entry keyed by
the identifier captured from it (the snapshot's own rnti field equals that
identifier only when a basic-info line had set it; otherwise it is empty). -/
theorem c5_amended_count (p : List (Int × String))
    (H1 : ∀ q ∈ p, ulOnly q.2 = true)
    (H2 : ∀ q ∈ p, ulLineOk q.2 = true) :
    (runLines [] p).2.length = (p.filter (fun q => isUl q.2)).length
    ∧ ∀ (m : TMap) (now : Int) (l : String) (c : List String),
        classify l = some (.ulPhy, c) → ulConvsOk c = true →
        (parse_line now m l).emitted
          = [getE (parse_line now m l).temp (capt c 1)] :=
  ⟨runLines_count p [] H1 H2,
   fun m now l c h hok => parse_line_emit_ok now m h hok⟩

set_option maxRecDepth 16000 in
/-- Witness for the amended C5 on the 928c scenario: one terminal line, one
emitted record. -/
theorem c5_amended_count_witness :
    (runLines [] scenarioLines).2.length
      = (scenarioLines.filter (fun q => isUl q.2)).length :=
  (c5_amended_count scenarioLines (by decide) (by decide)).1

set_option maxRecDepth 16000 in
/-- Claim C6 (code bug): the data row written by Parser::store_data does
follow the header's column order, but exportToCSV of main.cpp variant 2
writes ulsch_err and ulsch_dtx before dl_bler and dl_mcs, contradicting the
header it writes (and in part_000's combined mode no header is written at
all: the constructor never opens combined_file). -/
theorem c6_export_row_order :
    rowCells scenarioRecord = csvHeader.map (cellOfField scenarioRecord)
    ∧ rowCellsExport scenarioRecord
        ≠ csvHeader.map (cellOfField scenarioRecord) := by
  decide

set_option maxRecDepth 16000 in
/-- Counterexample to C7 as stated: two basic-info lines for 928c at times
10 and 20 followed by its terminal line: the persisted timestamp is 20, the
time of the LAST basic-info line, not 10, the time of the first line seen
for the identifier since its last completion. -/
theorem c7_counterexample :
    (runLines [] [(10, ueBasicLine), (20, ueBasicLine), (30, ulLine)]).2.map
        (fun d => d.timestamp) = [20]
    ∧ (runLines [] [(10, ueBasicLine), (20, ueBasicLine), (30, ulLine)]).2.map
        (fun d => d.timestamp) ≠ [10] := by
  decide

/-- Claim C7 amended: every basic-info line re-stamps its identifier's
record with the current wall-clock time (even when the record already
exists), so the persisted timestamp is that of the last basic-info line
before completion (the record's creation stamp if none arrived); no other
line, the terminal line included, changes any record's timestamp, and the
emitted snapshot carries the entry's pre-terminal-line timestamp. -/
theorem c7_amended_restamp (m : TMap) (now : Int) (l : String) (k : String) :
    (getE (parse_line now m l).temp k).timestamp
      = (if basicId l = some k then now else (getE m k).timestamp)
    ∧ ∀ c, classify l = some (.ulPhy, c) →
        ∀ d ∈ (parse_line now m l).emitted,
          d.timestamp = (getE m (capt c 1)).timestamp := by
  constructor
  · cases hb : searchP ue_basic_pattern l with
    | some c =>
        have hbid : basicId l = some (capt c 1) := by simp [basicId, hb]
        by_cases hk : k = capt c 1
        · subst hk
          rw [hbid, if_pos rfl]
          exact parse_line_timestamp_basic now m hb
        · have hcl : classify l = some (.ueBasic, c) := by
            unfold classify
            rw [hb]
          rw [hbid, if_neg (fun hh => hk (Option.some.inj hh).symm),
              parse_line_ne now m k hcl hk]
    | none =>
        have hbid : basicId l = none := by simp [basicId, hb]
        rw [hbid, if_neg (by simp)]
        cases hcl : classify l with
        | none => rw [parse_line_none now m hcl]
        | some bc =>
            obtain ⟨b, c⟩ := bc
            have hwf : writesF b .timestamp = false := by
              cases b
              case ueBasic =>
                  rw [classify_ueBasic_inv hcl] at hb
                  exact absurd hb (by simp)
              all_goals rfl
            have hfield := parse_line_field now m k .timestamp hcl hwf
            simpa [fieldOf] using hfield
  · intro c hcl d hd
    have hmem := parse_line_emit_mem now m hcl d hd
    have hfield := parse_line_field now m (capt c 1) .timestamp hcl rfl
    rw [hmem]
    simpa [fieldOf] using hfield

set_option maxRecDepth 16000 in
/-- Witness for the amended C7: a basic line at time 7 stamps 7; a bare
terminal line emits the entry's prior (zero) timestamp. -/
theorem c7_amended_restamp_witness :
    (getE (parse_line 7 [] ueBasicLine).temp "928c").timestamp
      = (if basicId ueBasicLine = some "928c" then 7
         else (getE ([] : TMap) "928c").timestamp)
    ∧ ((parse_line 3 [] ulLine).emitted.headD UEData.zero).timestamp
        = (getE ([] : TMap) "928c").timestamp := by
  refine ⟨(c7_amended_restamp [] 7 ueBasicLine "928c").1, ?_⟩
  exact (c7_amended_restamp [] 3 ulLine "928c").2
    ["928c", "0", "0", "0.07390", "6", "106", "17.5"] (by decide)
    ((parse_line 3 [] ulLine).emitted.headD UEData.zero) (by decide)

/-- Claim C8 (confirmed): a field of an identifier's record that no line of
the processed prefix (the terminal line included) writes for that
identifier is carried by the emitted completed record at its type's zero
value. -/
theorem c8_unwritten_fields_zero (p : List (Int × String)) (t : Int)
    (l : String) (k : String) (f : FieldName) (c : List String)
    (hf : ∀ q ∈ p, ∀ b cq, classify q.2 = some (b, cq) → capt cq 1 = k →
      writesF b f = false)
    (hl : classify l = some (.ulPhy, c)) (hk : capt c 1 = k)
    (hfl : writesF .ulPhy f = false) :
    ∀ d ∈ (parse_line t (runLines [] p).1 l).emitted,
      fieldOf d f = zeroOf f := by
  intro d hd
  have hmem := parse_line_emit_mem t (runLines [] p).1 hl d hd
  have h1 := parse_line_field t (runLines [] p).1 k f hl hfl
  have h2 := runLines_field_inv p [] k f hf
  have h3 : fieldOf (getE ([] : TMap) k) f = zeroOf f := by
    cases f <;> rfl
  rw [hmem, hk, h1, h2, h3]

set_option maxRecDepth 16000 in
/-- Witness for C8: a bare terminal line for 928c emits cqi at zero. -/
theorem c8_unwritten_fields_zero_witness :
    fieldOf ((parse_line 0 (runLines [] []).1 ulLine).emitted.headD UEData.zero)
        FieldName.cqi = zeroOf FieldName.cqi := by
  have h := c8_unwritten_fields_zero [] 0 ulLine "928c" FieldName.cqi
    ["928c", "0", "0", "0.07390", "6", "106", "17.5"]
    (by intro q hq; simp at hq)
    (by decide) (by decide) (by decide)
  exact h _ (by decide)

/-- Claim C9 (confirmed): under the queue's lock, with the wait predicate
holding (non-empty or closed), wait_pop pops the front item whenever one is
present, and yields the no-value outcome exactly when the done signal has
been raised and the queue is empty. -/
theorem c9_wait_pop_contract {α : Type} (q : List α) (dn : Bool)
    (h : q ≠ [] ∨ dn = true) :
    (∀ x xs, q = x :: xs → wait_pop q dn = (some x, xs))
    ∧ ((wait_pop q dn).1 = none ↔ dn = true ∧ q = []) := by
  constructor
  · rintro x xs rfl
    simp [wait_pop]
  · cases q with
    | nil =>
        cases dn with
        | false =>
            rcases h with h1 | h2
            · exact absurd rfl h1
            · cases h2
        | true => simp [wait_pop]
    | cons x xs => simp [wait_pop]

/-- Witness for C9: popping a singleton queue yields its element. -/
theorem c9_wait_pop_contract_witness :
    wait_pop [(3 : Nat)] false = (some 3, []) :=
  (c9_wait_pop_contract [(3 : Nat)] false (Or.inl (by simp))).1 3 [] rfl

/-- Claim C10 (confirmed): when no basic-info line for an identifier occurs,
the record created implicitly by operator[] keeps the empty rnti string and
the zero timestamp, and a record completed by a terminal line with no prior
basic-info line is emitted with empty identifier and zero timestamp. -/
theorem c10_implicit_record (p : List (Int × String)) (t : Int) (l : String)
    (k : String) (c : List String)
    (hb : ∀ q ∈ p, basicId q.2 ≠ some k)
    (hl : classify l = some (.ulPhy, c)) (hk : capt c 1 = k) :
    ((getE (runLines [] p).1 k).rnti = ""
      ∧ (getE (runLines [] p).1 k).timestamp = 0)
    ∧ ∀ d ∈ (parse_line t (runLines [] p).1 l).emitted,
        d.rnti = "" ∧ d.timestamp = 0 := by
  have hnotBasic : ∀ q ∈ p, ∀ b cq, classify q.2 = some (b, cq) →
      capt cq 1 = k → b ≠ Branch.ueBasic := by
    intro q hq b cq hcl hkq hbb
    subst hbb
    have hsb := classify_ueBasic_inv hcl
    have hbq := hb q hq
    have hbid : basicId q.2 = some (capt cq 1) := by simp [basicId, hsb]
    rw [hbid] at hbq
    exact hbq (congrArg some hkq)
  have hfrn : ∀ q ∈ p, ∀ b cq, classify q.2 = some (b, cq) → capt cq 1 = k →
      writesF b FieldName.rnti = false := by
    intro q hq b cq hcl hkq
    cases b
    case ueBasic => exact absurd rfl (hnotBasic q hq _ cq hcl hkq)
    all_goals rfl
  have hftn : ∀ q ∈ p, ∀ b cq, classify q.2 = some (b, cq) → capt cq 1 = k →
      writesF b FieldName.timestamp = false := by
    intro q hq b cq hcl hkq
    cases b
    case ueBasic => exact absurd rfl (hnotBasic q hq _ cq hcl hkq)
    all_goals rfl
  have invr := runLines_field_inv p [] k .rnti hfrn
  have invt := runLines_field_inv p [] k .timestamp hftn
  simp only [fieldOf, FVal.s.injEq, FVal.i.injEq] at invr invt
  have hz1 : (getE ([] : TMap) k).rnti = "" := rfl
  have hz2 : (getE ([] : TMap) k).timestamp = 0 := rfl
  rw [hz1] at invr
  rw [hz2] at invt
  refine ⟨⟨invr, invt⟩, ?_⟩
  intro d hd
  have hmem := parse_line_emit_mem t (runLines [] p).1 hl d hd
  have hr := parse_line_field t (runLines [] p).1 k .rnti hl rfl
  have ht := parse_line_field t (runLines [] p).1 k .timestamp hl rfl
  simp only [fieldOf, FVal.s.injEq, FVal.i.injEq] at hr ht
  rw [hmem, hk]
  exact ⟨hr.trans invr, ht.trans invt⟩

set_option maxRecDepth 16000 in
/-- Witness for C10: a quality line then a bare terminal line for 928c —
the working entry and the emitted record have empty rnti and timestamp 0. -/
theorem c10_implicit_record_witness :
    (getE (runLines [] [((5 : Int), cqiLine)]).1 "928c").rnti = ""
    ∧ ((parse_line 9 (runLines [] [((5 : Int), cqiLine)]).1 ulLine).emitted.headD
        UEData.zero).timestamp = 0 := by
  have h := c10_implicit_record [((5 : Int), cqiLine)] 9 ulLine "928c"
    ["928c", "0", "0", "0.07390", "6", "106", "17.5"]
    (by decide) (by decide) (by decide)
  exact ⟨h.1.1, (h.2 _ (by decide)).2⟩

end OaiGnb

